import Mathlib

/-!
Verification of the Minter swap engine (constant-product AMM with limit orders).

The definitions below are a shallow embedding of the Go source: arbitrary
precision integers are modelled by the type of integers, Go bigint Quo is
truncated division, Go bigint Div is Euclidean division, Go bigint Sqrt is the
integer square root, and panicking operations return a value of an error sum
type instead of diverging.
-/

deriving instance DecidableEq for Except

namespace Minter

/-- Go bigint Quo: truncated division (rounds toward zero). -/
def goQuo (a b : ℤ) : ℤ := Int.tdiv a b

/-- Go bigint Div: Euclidean division (remainder is non-negative). -/
def goDiv (a b : ℤ) : ℤ := Int.ediv a b

/-- Constant commission of the pool, 2 per thousand. -/
def commission : ℤ := 2

/-- Constant commission of an order, 2 per thousand, halved per side. -/
def commissionOrder : ℤ := 2

def minimumLiquidity : ℤ := 1000

/-- Bound equals minimumLiquidity in the source. -/
def Bound : ℤ := minimumLiquidity

/-- startingSupply from the source: integer square root of the product of the
two deposits (big Int Sqrt is the floor square root). -/
def startingSupply (amount0 amount1 : ℤ) : ℤ := Int.sqrt (amount0 * amount1)

/-- Persisted data of a pair: the two reserves and the pair id. -/
structure pairData where
  Reserve0 : ℤ
  Reserve1 : ℤ
  ID : ℕ
deriving DecidableEq, Repr

/-- pairData.reverse swaps the two reserves and keeps the id. -/
def pairData.reverse (pd : pairData) : pairData :=
  { Reserve0 := pd.Reserve1, Reserve1 := pd.Reserve0, ID := pd.ID }

/-- pairData update: add the two amounts to the reserves. -/
def pairData.update (pd : pairData) (amount0 amount1 : ℤ) : pairData :=
  { pd with Reserve0 := pd.Reserve0 + amount0, Reserve1 := pd.Reserve1 + amount1 }

/-- Error values raised (by panic) or returned by the swap engine. -/
inductive SwapErr where
  | ErrorK
  | ErrorInsufficientInputAmount
  | ErrorInsufficientOutputAmount
  | ErrorInsufficientLiquidity
  | ErrorInsufficientLiquidityMinted
  | ErrorInsufficientLiquidityBurned
  | ErrorNotExist
deriving DecidableEq, Repr

namespace Pair

/-- Pair.CalculateBuyForSell from the source: pool-only output for a given
input, nil (none) when the computed output is not positive. -/
def CalculateBuyForSell (pd : pairData) (amount0In : ℤ) : Option ℤ :=
  let kAdjusted := pd.Reserve0 * pd.Reserve1 * 1000000
  let balance0Adjusted := (amount0In + pd.Reserve0) * 1000 - amount0In * commission
  let amount1Out := pd.Reserve1 - goQuo kAdjusted (balance0Adjusted * 1000) - 1
  if amount1Out ≤ 0 then none else some amount1Out

/-- Pair.CalculateSellForBuy from the source: pool-only input needed for a
given output, nil (none) when the requested output reaches the reserve. -/
def CalculateSellForBuy (pd : pairData) (amount1Out : ℤ) : Option ℤ :=
  if pd.Reserve1 < amount1Out then none
  else
    let k := pd.Reserve0 * pd.Reserve1
    if ¬ amount1Out < pd.Reserve1 then none
    else
      let kAdjusted := k * 1000000
      let balance1Adjusted := (-amount1Out + pd.Reserve1) * 1000
      let amount0In :=
        goQuo (goQuo kAdjusted balance1Adjusted - pd.Reserve0 * 1000) (1000 - commission)
      some (amount0In + 1)

/-- Pair.Swap from the source: validates outputs, liquidity, inputs and the
commission-scaled constant-product check, then updates the reserves. The Go
function panics on failure; here each panic is an error value. -/
def Swap (pd : pairData) (amount0In amount1In amount0Out amount1Out : ℤ) :
    Except SwapErr (pairData × ℤ × ℤ) :=
  if ¬ 0 < amount0Out ∧ ¬ 0 < amount1Out then .error .ErrorInsufficientOutputAmount
  else if pd.Reserve0 < amount0Out ∨ pd.Reserve1 < amount1Out then
    .error .ErrorInsufficientLiquidity
  else
    let amount0 := amount0In - amount0Out
    let amount1 := amount1In - amount1Out
    if ¬ 0 < amount0 ∧ ¬ 0 < amount1 then .error .ErrorInsufficientInputAmount
    else
      let balance0Adjusted := (amount0 + pd.Reserve0) * 1000 - amount0In * commission
      let balance1Adjusted := (amount1 + pd.Reserve1) * 1000 - amount1In * commission
      if balance0Adjusted * balance1Adjusted < pd.Reserve0 * pd.Reserve1 * 1000000 then
        .error .ErrorK
      else
        .ok (pd.update amount0 amount1, amount0, amount1)

/-- Pair.checkSwap from the source: the same validations as Pair.Swap, with
the first two checks in the opposite order, returning the error without
mutating anything. -/
def checkSwap (pd : pairData) (amount0In amount1In amount0Out amount1Out : ℤ) :
    Option SwapErr :=
  if pd.Reserve0 < amount0Out ∨ pd.Reserve1 < amount1Out then
    some .ErrorInsufficientLiquidity
  else if ¬ 0 < amount0Out ∧ ¬ 0 < amount1Out then some .ErrorInsufficientOutputAmount
  else
    let amount0 := amount0In - amount0Out
    let amount1 := amount1In - amount1Out
    if ¬ 0 < amount0 ∧ ¬ 0 < amount1 then some .ErrorInsufficientInputAmount
    else
      let balance0Adjusted := (amount0 + pd.Reserve0) * 1000 - amount0In * commission
      let balance1Adjusted := (amount1 + pd.Reserve1) * 1000 - amount1In * commission
      if balance0Adjusted * balance1Adjusted < pd.Reserve0 * pd.Reserve1 * 1000000 then
        some .ErrorK
      else
        none

/-- Pair.CalculateAddLiquidity from the source: the liquidity for a deposit of
amount0 and the matching amount1, both by Euclidean division on reserve0. -/
def CalculateAddLiquidity (pd : pairData) (amount0 totalSupply : ℤ) : ℤ × ℤ :=
  (goDiv (totalSupply * amount0) pd.Reserve0, goDiv (amount0 * pd.Reserve1) pd.Reserve0)

/-- Pair.Mint from the source: recomputes amount1, requires positive liquidity
and increments the reserves; the amount1 argument of the Go function is
shadowed by the recomputed value and never read. -/
def Mint (pd : pairData) (amount0 _amount1 totalSupply : ℤ) :
    Except SwapErr (ℤ × pairData) :=
  let la := CalculateAddLiquidity pd amount0 totalSupply
  if la.1 ≤ 0 then .error .ErrorInsufficientLiquidityMinted
  else .ok (la.1, pd.update amount0 la.2)

/-- Pair.CheckMint from the source: the same math as Mint without mutation,
with the slippage bound checked first. -/
def CheckMint (pd : pairData) (amount0 maxAmount1 totalSupply : ℤ) : Option SwapErr :=
  let la := CalculateAddLiquidity pd amount0 totalSupply
  if maxAmount1 < la.2 then some .ErrorInsufficientInputAmount
  else if la.1 ≤ 0 then some .ErrorInsufficientLiquidityMinted
  else none

/-- Pair.Create from the source: the starting liquidity is the integer square
root of the product of the deposits; it must exceed Bound. -/
def Create (pd : pairData) (amount0 amount1 : ℤ) : Except SwapErr (ℤ × pairData) :=
  let liquidity := startingSupply amount0 amount1
  if liquidity ≤ Bound then .error .ErrorInsufficientLiquidityMinted
  else .ok (liquidity, pd.update amount0 amount1)

end Pair

/-- The id-allocator state of the Swap registry: the in-memory next id and the
value persisted in the tree under the total pair id key, if any. -/
structure SwapState where
  nextID : ℕ
  treeNextID : Option ℕ
  dirtyNextID : Bool
deriving DecidableEq, Repr

/-- Swap.loadNextID from the source: the in-memory counter when set, otherwise
the persisted value, defaulting to one. -/
def SwapState.loadNextID (s : SwapState) : ℕ :=
  if s.nextID ≠ 0 then s.nextID
  else
    match s.treeNextID with
    | none => 1
    | some id => id

/-- Swap.incID from the source: returns the next id and advances the counter. -/
def SwapState.incID (s : SwapState) : ℕ × SwapState :=
  let id := s.loadNextID
  (id, { s with nextID := id + 1, dirtyNextID := true })

/-- Swap.PairCreate from the source, specialised to a fresh pair: allocates the
id, creates the pool on zero reserves, and reports the reserve deltas. -/
def Swap.PairCreate (s : SwapState) (amount0 amount1 : ℤ) :
    Except SwapErr (ℤ × ℤ × ℤ × ℕ × pairData × SwapState) :=
  let r := s.incID
  let pd0 : pairData := { Reserve0 := 0, Reserve1 := 0, ID := r.1 }
  match Pair.Create pd0 amount0 amount1 with
  | .error e => .error e
  | .ok (liquidity, pd') =>
      .ok (pd'.Reserve0 - pd0.Reserve0, pd'.Reserve1 - pd0.Reserve1, liquidity, r.1, pd', r.2)

/-- The commission-scaled constant-product inequality of the spec, stated on
the old reserves and the four swap amounts. -/
def kCheck (pd : pairData) (amount0In amount1In amount0Out amount1Out : ℤ) : Prop :=
  ((pd.Reserve0 + amount0In - amount0Out) * 1000 - amount0In * 2) *
      ((pd.Reserve1 + amount1In - amount1Out) * 1000 - amount1In * 2) ≥
    pd.Reserve0 * pd.Reserve1 * 1000000

instance (pd : pairData) (a b c d : ℤ) : Decidable (kCheck pd a b c d) := by
  unfold kCheck; infer_instance

namespace V1

/-- A limit order of the older swap package: side flag, remaining sell and buy
volumes, owner and id. -/
structure Limit where
  isBuy : Bool
  Sell : ℤ
  Buy : ℤ
  Owner : ℕ
  id : ℕ
deriving DecidableEq, Repr

/-- Modelled from the spec: the Limit Price method is absent from the provided
source; per the spec glossary the price of an order is the quotient of its two
volumes, here the buy volume per unit of sell volume, as an exact rational. -/
def Limit.price (l : Limit) : ℚ := (l.Buy : ℚ) / (l.Sell : ℚ)

/-- Modelled from the spec: calcPriceSell is absent from the provided source;
per the spec the marginal price of a pair is reserve1 divided by reserve0. -/
def pairPrice (pd : pairData) : ℚ := (pd.Reserve1 : ℚ) / (pd.Reserve0 : ℚ)

/-- Pair.AddLastSwapStep of the older source: a virtual pool whose reserve0
grew by the input and whose reserve1 shrank by the output. -/
def AddLastSwapStep (pd : pairData) (amount0In amount1Out : ℤ) : pairData :=
  { Reserve0 := pd.Reserve0 + amount0In, Reserve1 := pd.Reserve1 - amount1Out, ID := pd.ID }

/-- Conversion of a big float value to a big integer: truncation toward zero,
as performed by the Int method on floats; prices being modelled as exact
rationals, the truncated quotient of numerator and denominator. -/
def floatToInt (q : ℚ) : ℤ := Int.tdiv q.num q.den

/-- The tail of calculateBuyForSellWithOrders once the order loop is left: a
pool-only step on the remaining input, added only when it is not nil. -/
def poolTail (pool : pairData) (amount0 amount1Out : ℤ) (touched : List Limit) :
    ℤ × List Limit :=
  match Pair.CalculateBuyForSell pool amount0 with
  | none => (amount1Out, touched)
  | some amount1diff => (amount1Out + amount1diff, touched)

/-- The loop of Pair.calculateBuyForSellWithOrders of the older source. The
orders are the sell side sorted ascending by price, supplied as a list in the
order the index OrderSellLowerByIndex yields them (the index machinery is
absent from the provided source and is modelled from the spec as the list).
The quadratic CalculateSellAmount0ForPrice runs on big floats and enters only
the advance-to-price step, so it is taken as a parameter f. Returns the total
output together with the touched-orders list. -/
def sellLoop (f : pairData → ℚ → ℤ) (pool : pairData) (orders : List Limit)
    (amount0 amount1Out : ℤ) (touched : List Limit) : ℤ × List Limit :=
  if amount0 = 0 then (amount1Out, touched)
  else
    match orders with
    | [] => poolTail pool amount0 amount1Out touched
    | limit :: tl =>
      let step1 : Option (pairData × ℤ × ℤ) :=
        if limit.price < pairPrice pool then
          let reserve0diff := f pool limit.price
          if ¬ reserve0diff < amount0 then none
          else
            let amount1diff := (Pair.CalculateBuyForSell pool reserve0diff).getD 0
            some (AddLastSwapStep pool reserve0diff amount1diff, amount0 - reserve0diff,
              amount1Out + amount1diff)
        else some (pool, amount0, amount1Out)
      match step1 with
      | none => poolTail pool amount0 amount1Out touched
      | some (pool', amount0', amount1Out') =>
        let rest := amount0' - limit.Sell
        if rest ≤ 0 then
          let amount1 := floatToInt (limit.price * (amount0' : ℚ))
          let com := goQuo (amount1 * (commissionOrder / 2)) 1000
          (amount1Out' + (amount1 - com),
            touched ++ [⟨limit.isBuy, amount0', amount1, limit.Owner, limit.id⟩])
        else
          let comS := goQuo (limit.Sell * (commissionOrder / 2)) 1000
          let comB := goQuo (limit.Buy * (commissionOrder / 2)) 1000
          sellLoop f (AddLastSwapStep pool' comS (-comB)) tl rest
            (amount1Out' + (limit.Buy - comB)) (touched ++ [limit])

/-- Pair.calculateBuyForSellWithOrders of the older source: run the loop from
the real reserves with empty accumulators. -/
def calculateBuyForSellWithOrders (f : pairData → ℚ → ℤ) (pd : pairData)
    (orders : List Limit) (amount0In : ℤ) : ℤ × List Limit :=
  sellLoop f pd orders amount0In 0 []

end V1

namespace V2

/-- A limit order of the newer swap package: id, side relative to the
canonical pair, remaining volumes, owner, expiry height and the pair coins. -/
structure Limit where
  id : ℕ
  IsBuy : Bool
  WantBuy : ℤ
  WantSell : ℤ
  Owner : ℕ
  Height : ℕ
  Coin0 : ℕ
  Coin1 : ℕ
deriving DecidableEq, Repr

/-- Modelled from the spec: PairRemoveLimitOrder is absent from the provided
source; per the spec it removes the order and returns the coin to refund and
the refund amount, which is the remaining want sell volume, in the coin the
order was selling. -/
def removeLimitOrderRefund (o : Limit) : ℕ × ℤ :=
  (if o.IsBuy then o.Coin0 else o.Coin1, o.WantSell)

/-- One removal performed by the expiry sweep: the order is removed, the
refund credited to the owner through the accounts adapter, and an OrderExpired
event with the same data emitted on the event bus. -/
structure ExpiryAction where
  orderId : ℕ
  owner : ℕ
  coin : ℕ
  amount : ℤ
deriving DecidableEq, Repr

/-- The scan of Swap.ExpireOrders from the source: the order-record range is
iterated in ascending id order and the callback returns true, stopping the
whole iteration, at the first record whose height exceeds the bound; only the
prefix before that record is collected. -/
def collectExpiring (records : List Limit) (beforeHeight : ℕ) : List Limit :=
  match records with
  | [] => []
  | o :: tl =>
    if beforeHeight < o.Height then []
    else o :: collectExpiring tl beforeHeight

/-- The effect of one collected order. -/
def expiryActionOf (o : Limit) : ExpiryAction :=
  { orderId := o.id, owner := o.Owner,
    coin := (removeLimitOrderRefund o).1, amount := (removeLimitOrderRefund o).2 }

/-- Swap.ExpireOrders from the source: collect the prefix of expirable orders,
then remove each and credit and announce its refund, in scan order. -/
def ExpireOrders (records : List Limit) (beforeHeight : ℕ) : List ExpiryAction :=
  (collectExpiring records beforeHeight).map expiryActionOf

end V2

/-- A pair key: the two coin ids of a pool. -/
structure PairKey where
  Coin0 : ℕ
  Coin1 : ℕ
deriving DecidableEq, Repr

/-- PairKey.isSorted from the source: the canonical orientation. -/
def PairKey.isSorted (pk : PairKey) : Bool := pk.Coin0 < pk.Coin1

/-- PairKey.reverse from the source. -/
def PairKey.reverse (pk : PairKey) : PairKey := { Coin0 := pk.Coin1, Coin1 := pk.Coin0 }

/-- PairKey.sort from the source: the canonical form of the key. -/
def PairKey.sort (pk : PairKey) : PairKey := if pk.isSorted then pk else pk.reverse

/-- Modelled from the spec: the Bytes method of a coin id is absent from the
provided source; per the spec key layout a coin id is encoded as four
big-endian bytes. -/
def coinBytes (c : ℕ) : List ℕ :=
  [c / 16777216 % 256, c / 65536 % 256, c / 256 % 256, c % 256]

/-- PairKey.bytes from the source: the canonical coin encodings concatenated. -/
def PairKey.bytes (pk : PairKey) : List ℕ :=
  coinBytes pk.sort.Coin0 ++ coinBytes pk.sort.Coin1

/-- The order in which Commit visits dirty pairs: descending byte encoding,
the sorted-output relation of the Go stable sort whose less function compares
encodings with result one. -/
def keyGE (a b : PairKey) : Prop := b.bytes ≤ a.bytes

instance : DecidableRel keyGE := fun a b => by unfold keyGE; infer_instance

instance : IsTotal PairKey keyGE := ⟨fun a b => le_total b.bytes a.bytes⟩

instance : IsTrans PairKey keyGE := ⟨fun _ _ _ h h' => le_trans h' h⟩

/-- The order in which Commit visits dirty orders of a pair: descending id. -/
def idGE (a b : ℕ) : Prop := b ≤ a

instance : DecidableRel idGE := fun a b => by unfold idGE; infer_instance

instance : IsTotal ℕ idGE := ⟨fun a b => le_total b a⟩

instance : IsTrans ℕ idGE := ⟨fun _ _ _ h h' => le_trans h' h⟩

/-- Swap.getOrderedDirtyPairs from the source: the dirty keys stably sorted so
that keys with larger byte encoding come first. -/
def getOrderedDirtyPairs (keys : List PairKey) : List PairKey :=
  List.insertionSort keyGE keys

/-- Pair.getDirtyOrdersList from the source: the dirty order ids stably sorted
descending. -/
def getDirtyOrdersList (ids : List ℕ) : List ℕ :=
  List.insertionSort idGE ids

/-- Swap.pair from the source: look the canonical key up in the registry and
reverse the view when the requested orientation is not canonical. -/
def pairLookup (m : PairKey → Option pairData) (key : PairKey) : Option pairData :=
  match m key.sort with
  | none => none
  | some pd => if key.isSorted then some pd else some pd.reverse

/-- Swap.SwapPool from the source: the reserves and id of the oriented pair,
none when the pair does not exist. -/
def SwapPool (m : PairKey → Option pairData) (coinA coinB : ℕ) : Option (ℤ × ℤ × ℕ) :=
  match pairLookup m { Coin0 := coinA, Coin1 := coinB } with
  | none => none
  | some pd => some (pd.Reserve0, pd.Reserve1, pd.ID)

/-- The closed output formula of the buy-for-sell claim, with the divisions
read as integer quotients. -/
def buyForSellFormula (pd : pairData) (amount0In : ℤ) : ℤ :=
  pd.Reserve1 - goQuo (pd.Reserve0 * pd.Reserve1 * 1000000)
      (((amount0In + pd.Reserve0) * 1000 - amount0In * 2) * 1000) - 1

/-- The closed input formula of the sell-for-buy claim, with the divisions
read as integer quotients. -/
def sellForBuyFormula (pd : pairData) (amount1Out : ℤ) : ℤ :=
  goQuo (goQuo (pd.Reserve0 * pd.Reserve1 * 1000000) ((pd.Reserve1 - amount1Out) * 1000)
      - pd.Reserve0 * 1000) (1000 - 2) + 1

/-- The liquidity formula of the mint claim. -/
def mintLiquidity (pd : pairData) (amount0 totalSupply : ℤ) : ℤ :=
  goDiv (totalSupply * amount0) pd.Reserve0

/-- The amount1 formula of the mint claim. -/
def mintAmount1 (pd : pairData) (amount0 : ℤ) : ℤ :=
  goDiv (amount0 * pd.Reserve1) pd.Reserve0

/-- A sell order fixture for concrete instantiations: volumes 500 against 450,
price nine tenths. -/
def limitW : V1.Limit := ⟨false, 500, 450, 7, 1⟩

/-- A trivial advance-to-price function for concrete instantiations. -/
def fZero : pairData → ℚ → ℤ := fun _ _ => 0

/-- An order fixture whose expiry height 200 exceeds the sweep bound. -/
def orderHigh : V2.Limit := ⟨1, false, 450, 500, 7, 200, 1, 2⟩

/-- An order fixture whose expiry height 50 is within the sweep bound. -/
def orderLow : V2.Limit := ⟨2, false, 450, 500, 8, 50, 1, 2⟩

/-- A registry with one canonical pair for concrete instantiations. -/
def mW : PairKey → Option pairData :=
  fun k => if k = { Coin0 := 1, Coin1 := 2 } then some ⟨10, 20, 5⟩ else none

lemma PairCreate_ok (s : SwapState) (a0 a1 liq : ℤ) (pd' : pairData)
    (h : Pair.Create ⟨0, 0, s.incID.1⟩ a0 a1 = .ok (liq, pd')) :
    Swap.PairCreate s a0 a1 =
      .ok (pd'.Reserve0 - 0, pd'.Reserve1 - 0, liq, s.incID.1, pd', s.incID.2) := by
  simp only [Swap.PairCreate, h]

lemma int_sqrt_4e8 : Int.sqrt 400000000 = 20000 := by
  have h1 : (20000 : ℕ) ≤ Nat.sqrt 400000000 := Nat.le_sqrt.mpr (by norm_num)
  have h2 : Nat.sqrt 400000000 < 20001 := Nat.sqrt_lt.mpr (by norm_num)
  have h3 : Nat.sqrt 400000000 = 20000 := by omega
  unfold Int.sqrt
  have ht : Int.toNat 400000000 = 400000000 := rfl
  rw [ht, h3]
  rfl

/-- C2: the claim states both the floor-quotient formula and the value 996 for
a sale of 1000 into the million-million pool; the code computes 997 there, so
the two parts of the claim contradict each other and the stated value is
wrong. -/
theorem C2_counterexample :
    Pair.CalculateBuyForSell ⟨1000000, 1000000, 1⟩ 1000 = some 997 ∧ (997 : ℤ) ≠ 996 := by
  exact ⟨by decide, by decide⟩

/-- C2 (amended): CalculateBuyForSell returns the claimed integer-quotient
formula, returning none exactly when it is non-positive, and on the
million-million pool a sale of 1000 yields 997. -/
theorem C2_amended (pd : pairData) (amount0In : ℤ) :
    (Pair.CalculateBuyForSell pd amount0In = none ↔ buyForSellFormula pd amount0In ≤ 0) ∧
    (0 < buyForSellFormula pd amount0In →
      Pair.CalculateBuyForSell pd amount0In = some (buyForSellFormula pd amount0In)) ∧
    Pair.CalculateBuyForSell ⟨1000000, 1000000, 1⟩ 1000 = some 997 := by
  refine ⟨?_, ?_, by decide⟩
  · simp only [Pair.CalculateBuyForSell, buyForSellFormula, commission]
    split_ifs with h <;> simp [h]
  · intro hpos
    simp only [buyForSellFormula] at hpos
    simp only [Pair.CalculateBuyForSell, buyForSellFormula, commission]
    rw [if_neg (by omega)]

/-- C2 witness: the amended theorem applied to the million-million pool. -/
theorem C2_amended_witness :
    Pair.CalculateBuyForSell ⟨1000000, 1000000, 1⟩ 1000 =
      some (buyForSellFormula ⟨1000000, 1000000, 1⟩ 1000) :=
  (C2_amended ⟨1000000, 1000000, 1⟩ 1000).2.1 (by decide)

/-- C4: CalculateSellForBuy returns none exactly when the requested output
reaches the reserve, and otherwise the claimed double-quotient formula. -/
theorem C4_thm (pd : pairData) (amount1Out : ℤ) :
    (Pair.CalculateSellForBuy pd amount1Out = none ↔ pd.Reserve1 ≤ amount1Out) ∧
    (amount1Out < pd.Reserve1 →
      Pair.CalculateSellForBuy pd amount1Out = some (sellForBuyFormula pd amount1Out)) := by
  have e : -amount1Out + pd.Reserve1 = pd.Reserve1 - amount1Out := by ring
  simp only [Pair.CalculateSellForBuy, sellForBuyFormula, commission, e]
  split_ifs with h1 h2 <;> simp_all
  omega

/-- C4 witness: the theorem applied to the million-million pool with a
requested output below the reserve. -/
theorem C4_thm_witness :
    Pair.CalculateSellForBuy ⟨1000000, 1000000, 1⟩ 997 =
      some (sellForBuyFormula ⟨1000000, 1000000, 1⟩ 997) :=
  (C4_thm ⟨1000000, 1000000, 1⟩ 997).2 (by decide)

/-- C10: on non-negative reserves and input, every non-none result of
CalculateBuyForSell is strictly positive and strictly below the output
reserve, hence satisfies the liquidity precondition of Swap. -/
theorem C10_thm (pd : pairData) (amount0In v : ℤ)
    (h0 : 0 ≤ pd.Reserve0) (h1 : 0 ≤ pd.Reserve1) (ha : 0 ≤ amount0In)
    (hv : Pair.CalculateBuyForSell pd amount0In = some v) :
    0 < v ∧ v < pd.Reserve1 ∧ v ≤ pd.Reserve1 := by
  simp only [Pair.CalculateBuyForSell, commission] at hv
  split_ifs at hv with h
  have hb : (0 : ℤ) ≤ ((amount0In + pd.Reserve0) * 1000 - amount0In * 2) * 1000 := by
    have hb0 : (0 : ℤ) ≤ (amount0In + pd.Reserve0) * 1000 - amount0In * 2 := by linarith
    linarith
  have hk : (0 : ℤ) ≤ pd.Reserve0 * pd.Reserve1 * 1000000 := by positivity
  have hq : 0 ≤ goQuo (pd.Reserve0 * pd.Reserve1 * 1000000)
      (((amount0In + pd.Reserve0) * 1000 - amount0In * 2) * 1000) :=
    Int.tdiv_nonneg hk hb
  simp only [Option.some.injEq] at hv
  omega

/-- C10 witness: the theorem applied to the million-million pool. -/
theorem C10_thm_witness : 0 < (997 : ℤ) ∧ (997 : ℤ) < 1000000 ∧ (997 : ℤ) ≤ 1000000 :=
  C10_thm ⟨1000000, 1000000, 1⟩ 1000 997 (by decide) (by decide) (by decide) (by decide)

/-- C5: on an empty pair, Create rejects with InsufficientLiquidityMinted
exactly when the floor square root of the product is at most 1000, otherwise
returns that liquidity and sets the reserves to the deposits; on a fresh
registry the first PairCreate of 10000 and 40000 yields liquidity 20000,
reserves 10000 and 40000, and pair id 1. -/
theorem C5_thm (amount0 amount1 : ℤ) (id : ℕ) :
    (Pair.Create ⟨0, 0, id⟩ amount0 amount1 = .error .ErrorInsufficientLiquidityMinted ↔
      Int.sqrt (amount0 * amount1) ≤ 1000) ∧
    (1000 < Int.sqrt (amount0 * amount1) →
      Pair.Create ⟨0, 0, id⟩ amount0 amount1 =
        .ok (Int.sqrt (amount0 * amount1), ⟨amount0, amount1, id⟩)) ∧
    Swap.PairCreate ⟨0, none, false⟩ 10000 40000 =
      .ok (10000, 40000, 20000, 1, ⟨10000, 40000, 1⟩, ⟨2, none, true⟩) := by
  refine ⟨?_, ?_, ?_⟩
  · simp only [Pair.Create, startingSupply, Bound, minimumLiquidity]
    split_ifs with h <;> simp_all
  · intro h
    simp only [Pair.Create, startingSupply, Bound, minimumLiquidity]
    rw [if_neg (by omega)]
    simp [pairData.update]
  · have hs : startingSupply 10000 40000 = 20000 := by
      simp only [startingSupply]
      norm_num [int_sqrt_4e8]
    have hid : (SwapState.incID ⟨0, none, false⟩).1 = 1 := rfl
    have hc : Pair.Create ⟨0, 0, (SwapState.incID ⟨0, none, false⟩).1⟩ 10000 40000 =
        .ok (20000, ⟨10000, 40000, 1⟩) := by
      rw [hid]
      simp only [Pair.Create, hs, Bound, minimumLiquidity]
      norm_num [pairData.update]
    have h3 := PairCreate_ok ⟨0, none, false⟩ 10000 40000 20000 ⟨10000, 40000, 1⟩ hc
    rw [h3]
    rfl

/-- C5 witness: the create branch of the theorem at the scenario deposits. -/
theorem C5_thm_witness :
    Pair.Create ⟨0, 0, 1⟩ 10000 40000 =
      .ok (Int.sqrt (10000 * 40000), ⟨10000, 40000, 1⟩) :=
  (C5_thm 10000 40000 1).2.1 (by norm_num [int_sqrt_4e8])

/-- C6: with positive reserve0 and non-negative deposit and supply, CheckMint
rejects with InsufficientInputAmount exactly when the matching amount1 exceeds
the bound, rejects with InsufficientLiquidityMinted exactly when the computed
liquidity is zero, and when neither rejection fires Mint returns the liquidity
and increments the reserves by the deposit and the matching amount1. -/
theorem C6_thm (pd : pairData) (amount0 maxAmount1 totalSupply : ℤ)
    (hr0 : 0 < pd.Reserve0) (ha : 0 ≤ amount0) (hts : 0 ≤ totalSupply) :
    (Pair.CheckMint pd amount0 maxAmount1 totalSupply = some .ErrorInsufficientInputAmount ↔
      maxAmount1 < mintAmount1 pd amount0) ∧
    (mintAmount1 pd amount0 ≤ maxAmount1 →
      (Pair.CheckMint pd amount0 maxAmount1 totalSupply =
          some .ErrorInsufficientLiquidityMinted ↔
        mintLiquidity pd amount0 totalSupply = 0)) ∧
    (Pair.CheckMint pd amount0 maxAmount1 totalSupply = none →
      Pair.Mint pd amount0 maxAmount1 totalSupply =
        .ok (mintLiquidity pd amount0 totalSupply,
          pd.update amount0 (mintAmount1 pd amount0))) := by
  have hliq : 0 ≤ goDiv (totalSupply * amount0) pd.Reserve0 :=
    Int.ediv_nonneg (mul_nonneg hts ha) (le_of_lt hr0)
  simp only [Pair.CheckMint, Pair.Mint, Pair.CalculateAddLiquidity, mintLiquidity,
    mintAmount1]
  split_ifs with h1 h2 <;> simp_all <;> omega

lemma kCheck_iff (pd : pairData) (a0In a1In a0Out a1Out : ℤ) :
    kCheck pd a0In a1In a0Out a1Out ↔
      ¬ ((a0In - a0Out + pd.Reserve0) * 1000 - a0In * commission) *
          ((a1In - a1Out + pd.Reserve1) * 1000 - a1In * commission) <
        pd.Reserve0 * pd.Reserve1 * 1000000 := by
  have e : ((a0In - a0Out + pd.Reserve0) * 1000 - a0In * 2) *
      ((a1In - a1Out + pd.Reserve1) * 1000 - a1In * 2) =
      ((pd.Reserve0 + a0In - a0Out) * 1000 - a0In * 2) *
        ((pd.Reserve1 + a1In - a1Out) * 1000 - a1In * 2) := by ring
  unfold kCheck commission
  rw [not_lt, e, ge_iff_le]

lemma Swap_ok_inv (pd : pairData) (a0In a1In a0Out a1Out : ℤ) (pd' : pairData) (r0 r1 : ℤ)
    (h : Pair.Swap pd a0In a1In a0Out a1Out = .ok (pd', r0, r1)) :
    kCheck pd a0In a1In a0Out a1Out ∧
      pd' = pd.update (a0In - a0Out) (a1In - a1Out) := by
  simp only [Pair.Swap] at h
  split_ifs at h with h1 h2 h3 h4
  simp only [Except.ok.injEq, Prod.mk.injEq] at h
  exact ⟨(kCheck_iff pd a0In a1In a0Out a1Out).mpr h4, h.1.symm⟩

lemma Swap_errK_iff (pd : pairData) (a0In a1In a0Out a1Out : ℤ) :
    Pair.Swap pd a0In a1In a0Out a1Out = .error .ErrorK ↔
      Pair.checkSwap pd a0In a1In a0Out a1Out = some .ErrorK := by
  simp only [Pair.Swap, Pair.checkSwap]
  split_ifs <;> simp

/-- C1 counterexample: with reserves 100 and 100 and an output of 200 on side
zero, the k-inequality fails, yet Swap panics with InsufficientLiquidity and
checkSwap returns InsufficientLiquidity, not ErrorK, because the liquidity
precondition fires before the k-check is reached. -/
theorem C1_counterexample :
    ¬ kCheck ⟨100, 100, 1⟩ 0 0 200 0 ∧
    Pair.Swap ⟨100, 100, 1⟩ 0 0 200 0 = .error .ErrorInsufficientLiquidity ∧
    Pair.checkSwap ⟨100, 100, 1⟩ 0 0 200 0 = some .ErrorInsufficientLiquidity ∧
    SwapErr.ErrorInsufficientLiquidity ≠ SwapErr.ErrorK := by
  refine ⟨by decide, by decide, by decide, by decide⟩

/-- C1 (amended): a Swap that returns without panicking satisfies the
commission-scaled constant-product inequality on the updated reserves; when
the inequality fails the operation always aborts, and it aborts with ErrorK
precisely when checkSwap returns ErrorK on the same inputs, namely when the
output, liquidity and input precondition checks all pass. -/
theorem C1_amended (pd : pairData) (a0In a1In a0Out a1Out : ℤ) :
    (∀ (pd' : pairData) (r0 r1 : ℤ),
      Pair.Swap pd a0In a1In a0Out a1Out = .ok (pd', r0, r1) →
        kCheck pd a0In a1In a0Out a1Out ∧
          pd' = pd.update (a0In - a0Out) (a1In - a1Out)) ∧
    (¬ kCheck pd a0In a1In a0Out a1Out →
      ∀ (pd' : pairData) (r0 r1 : ℤ),
        Pair.Swap pd a0In a1In a0Out a1Out ≠ .ok (pd', r0, r1)) ∧
    (Pair.Swap pd a0In a1In a0Out a1Out = .error .ErrorK ↔
      Pair.checkSwap pd a0In a1In a0Out a1Out = some .ErrorK) := by
  refine ⟨fun pd' r0 r1 h => Swap_ok_inv pd a0In a1In a0Out a1Out pd' r0 r1 h,
    fun hk pd' r0 r1 h => hk (Swap_ok_inv pd a0In a1In a0Out a1Out pd' r0 r1 h).1,
    Swap_errK_iff pd a0In a1In a0Out a1Out⟩

/-- C1 witness: the amended theorem applied to a successful concrete swap. -/
theorem C1_amended_witness :
    kCheck ⟨1000000, 1000000, 1⟩ 1000 0 0 997 ∧
      pairData.mk 1001000 999003 1 =
        pairData.update ⟨1000000, 1000000, 1⟩ (1000 - 0) (0 - 997) :=
  (C1_amended ⟨1000000, 1000000, 1⟩ 1000 0 0 997).1 ⟨1001000, 999003, 1⟩ 1000 (-997)
    (by decide)

/-- C6 witness: the mint branch of the theorem on a small pool. -/
theorem C6_thm_witness :
    Pair.Mint ⟨1000, 2000, 1⟩ 100 300 5000 =
      .ok (mintLiquidity ⟨1000, 2000, 1⟩ 100 5000,
        pairData.update ⟨1000, 2000, 1⟩ 100 (mintAmount1 ⟨1000, 2000, 1⟩ 100)) :=
  (C6_thm ⟨1000, 2000, 1⟩ 100 300 5000 (by decide) (by decide) (by decide)).2.2 (by decide)

lemma commissionOrder_half : (commissionOrder / 2 : ℤ) = 1 := by decide

/-- C3: in the order loop of calculateBuyForSellWithOrders, at an order whose
price does not undercut the pool price, when the remaining input does not
exceed the order sell volume the order is partially filled: the proportional
output is truncated, a commission of one thousandth of it is charged, the net
amount is added to the accumulator and the loop returns at once, touching
neither the remaining orders nor the pool; otherwise the order is fully
consumed, appended to the touched list, the virtual pool is advanced by the
two order commissions, the input becomes the remainder and the loop
continues. -/
theorem C3_thm (f : pairData → ℚ → ℤ) (pool : pairData) (limit : V1.Limit)
    (tl : List V1.Limit) (amount0 amount1Out : ℤ) (touched : List V1.Limit)
    (h0 : amount0 ≠ 0) (hp : ¬ limit.price < V1.pairPrice pool) :
    (amount0 - limit.Sell ≤ 0 →
      V1.sellLoop f pool (limit :: tl) amount0 amount1Out touched =
        (amount1Out + (V1.floatToInt (limit.price * (amount0 : ℚ)) -
            goQuo (V1.floatToInt (limit.price * (amount0 : ℚ)) * 1) 1000),
          touched ++ [⟨limit.isBuy, amount0, V1.floatToInt (limit.price * (amount0 : ℚ)),
            limit.Owner, limit.id⟩])) ∧
    (0 < amount0 - limit.Sell →
      V1.sellLoop f pool (limit :: tl) amount0 amount1Out touched =
        V1.sellLoop f
          (V1.AddLastSwapStep pool (goQuo (limit.Sell * 1) 1000)
            (-(goQuo (limit.Buy * 1) 1000)))
          tl (amount0 - limit.Sell)
          (amount1Out + (limit.Buy - goQuo (limit.Buy * 1) 1000))
          (touched ++ [limit])) := by
  rw [V1.sellLoop]
  rw [if_neg h0]
  simp only [if_neg hp, commissionOrder_half]
  constructor
  · intro hrest
    rw [if_pos hrest]
  · intro hrest
    rw [if_neg (by omega)]

/-- C3 witness: the partial-fill branch at a concrete order and pool. -/
theorem C3_thm_witness :
    V1.sellLoop fZero ⟨1000000, 500000, 1⟩ [limitW] 100 0 [] =
      (90, [⟨false, 100, 90, 7, 1⟩]) := by
  have h := (C3_thm fZero ⟨1000000, 500000, 1⟩ limitW [] 100 0 []
    (by decide) (by norm_num [V1.Limit.price, V1.pairPrice, limitW])).1 (by decide)
  rw [h]
  norm_num [V1.floatToInt, V1.Limit.price, limitW, goQuo]
  decide

/-- C7 counterexample: with an order of height 200 stored before an order of
height 50, a sweep with bound 100 stops at the first record and performs no
removal at all, although the second order is expirable; the claim that every
stored order with height within the bound is removed therefore fails. -/
theorem C7_counterexample :
    orderLow ∈ [orderHigh, orderLow] ∧ orderLow.Height ≤ 100 ∧
    V2.ExpireOrders [orderHigh, orderLow] 100 = [] := by
  refine ⟨by decide, by decide, by decide⟩

/-- C7 (amended): ExpireOrders removes exactly the longest prefix of the
id-ascending record range whose orders all have height within the bound; for
each removed order it credits the refund and emits the OrderExpired event with
the same order id, owner, coin and amount, and every order from the first one
with height above the bound onward is untouched. -/
theorem C7_amended (records : List V2.Limit) (beforeHeight : ℕ) :
    V2.ExpireOrders records beforeHeight =
      (records.takeWhile (fun o => o.Height ≤ beforeHeight)).map V2.expiryActionOf ∧
    ∀ o ∈ V2.collectExpiring records beforeHeight, o.Height ≤ beforeHeight := by
  have hco : V2.collectExpiring records beforeHeight =
      records.takeWhile (fun o => o.Height ≤ beforeHeight) := by
    induction records with
    | nil => rfl
    | cons o tl ih =>
      by_cases h : beforeHeight < o.Height
      · have h2 : ¬ o.Height ≤ beforeHeight := by omega
        simp [V2.collectExpiring, List.takeWhile_cons, h, h2]
      · have h2 : o.Height ≤ beforeHeight := by omega
        simp [V2.collectExpiring, List.takeWhile_cons, h, h2, ih]
  constructor
  · rw [V2.ExpireOrders, hco]
  · intro o ho
    rw [hco] at ho
    have := List.mem_takeWhile_imp ho
    simpa using this

/-- C7 witness: the amended theorem applied to a one-order range. -/
theorem C7_amended_witness : orderLow.Height ≤ 100 :=
  (C7_amended [orderLow] 100).2 orderLow (by decide)

/-- C9: on a registry whose stored keys are canonical, the pool query of an
oriented pair returns a triple exactly when the opposite orientation returns
the triple with the reserves exchanged and the same id; reversing a pair view
twice is the identity, and an update through a reversed view is one update of
the canonical data with the amounts exchanged. -/
theorem C9_thm (m : PairKey → Option pairData)
    (hcanon : ∀ k, (m k).isSome → k.Coin0 < k.Coin1) (a b : ℕ) (r0 r1 : ℤ) (id : ℕ) :
    (SwapPool m a b = some (r0, r1, id) ↔ SwapPool m b a = some (r1, r0, id)) ∧
    (∀ pd : pairData, pd.reverse.reverse = pd) ∧
    (∀ (pd : pairData) (a0 a1 : ℤ),
      pd.reverse.update a0 a1 = (pd.update a1 a0).reverse) := by
  refine ⟨?_, fun pd => rfl, fun pd a0 a1 => rfl⟩
  rcases Nat.lt_trichotomy a b with hab | hab | hab
  · have hs1 : PairKey.sort ⟨a, b⟩ = ⟨a, b⟩ := by
      simp [PairKey.sort, PairKey.isSorted, hab]
    have hs2 : PairKey.sort ⟨b, a⟩ = ⟨a, b⟩ := by
      simp [PairKey.sort, PairKey.isSorted, PairKey.reverse, Nat.not_lt.mpr (Nat.le_of_lt hab)]
    simp only [SwapPool, pairLookup, hs1, hs2]
    cases hm : m ⟨a, b⟩ with
    | none => simp
    | some pd =>
      have h1 : PairKey.isSorted ⟨a, b⟩ = true := by simp [PairKey.isSorted, hab]
      have h2 : PairKey.isSorted ⟨b, a⟩ = false := by
        simp [PairKey.isSorted, Nat.not_lt.mpr (Nat.le_of_lt hab)]
      simp only [h1, h2, pairData.reverse]
      simp
      tauto
  · subst hab
    have hnone : m (PairKey.sort ⟨a, a⟩) = none := by
      cases hm : m (PairKey.sort ⟨a, a⟩) with
      | none => rfl
      | some pd =>
        have hlt := hcanon (PairKey.sort ⟨a, a⟩) (by simp [hm])
        have : PairKey.sort ⟨a, a⟩ = ⟨a, a⟩ := by
          simp [PairKey.sort, PairKey.isSorted, PairKey.reverse]
        rw [this] at hlt
        exact absurd hlt (lt_irrefl a)
    simp [SwapPool, pairLookup, hnone]
  · have hs1 : PairKey.sort ⟨a, b⟩ = ⟨b, a⟩ := by
      simp [PairKey.sort, PairKey.isSorted, PairKey.reverse, Nat.not_lt.mpr (Nat.le_of_lt hab)]
    have hs2 : PairKey.sort ⟨b, a⟩ = ⟨b, a⟩ := by
      simp [PairKey.sort, PairKey.isSorted, hab]
    simp only [SwapPool, pairLookup, hs1, hs2]
    cases hm : m ⟨b, a⟩ with
    | none => simp
    | some pd =>
      have h1 : PairKey.isSorted ⟨a, b⟩ = false := by
        simp [PairKey.isSorted, Nat.not_lt.mpr (Nat.le_of_lt hab)]
      have h2 : PairKey.isSorted ⟨b, a⟩ = true := by simp [PairKey.isSorted, hab]
      simp only [h1, h2, pairData.reverse]
      simp
      tauto

/-- C9 witness: the symmetry direction applied to the concrete registry. -/
theorem C9_thm_witness : SwapPool mW 2 1 = some (20, 10, 5) := by
  have hcanon : ∀ k, (mW k).isSome → k.Coin0 < k.Coin1 := by
    intro k hk
    by_cases h : k = { Coin0 := 1, Coin1 := 2 }
    · subst h; decide
    · simp [mW, h] at hk
  exact (C9_thm mW hcanon 1 2 10 20 5).1.mp (by decide)

lemma coinBytes_inj {a b : ℕ} (ha : a < 4294967296) (hb : b < 4294967296)
    (h : coinBytes a = coinBytes b) : a = b := by
  simp only [coinBytes, List.cons.injEq, and_true] at h
  omega

lemma coinBytes_length (a : ℕ) : (coinBytes a).length = 4 := rfl

lemma PairKey_bytes_inj {k1 k2 : PairKey} (h1 : k1.Coin0 < k1.Coin1)
    (h2 : k2.Coin0 < k2.Coin1) (hb1 : k1.Coin1 < 4294967296) (hb2 : k2.Coin1 < 4294967296)
    (h : k1.bytes = k2.bytes) : k1 = k2 := by
  have hs1 : k1.sort = k1 := by
    simp [PairKey.sort, PairKey.isSorted, h1]
  have hs2 : k2.sort = k2 := by
    simp [PairKey.sort, PairKey.isSorted, h2]
  unfold PairKey.bytes at h
  rw [hs1, hs2] at h
  obtain ⟨e0, e1⟩ := List.append_inj h (by rw [coinBytes_length, coinBytes_length])
  have hc0 : k1.Coin0 = k2.Coin0 :=
    coinBytes_inj (lt_trans h1 hb1) (lt_trans h2 hb2) e0
  have hc1 : k1.Coin1 = k2.Coin1 := coinBytes_inj hb1 hb2 e1
  cases k1
  cases k2
  simp_all

lemma eq_of_perm_of_sorted_nodup {α : Type} {r : α → α → Prop} :
    ∀ {l₁ l₂ : List α}, l₁.Perm l₂ → List.Sorted r l₁ → List.Sorted r l₂ → l₁.Nodup →
      (∀ a ∈ l₁, ∀ b ∈ l₁, r a b → r b a → a = b) → l₁ = l₂
  | [], l₂, hp, _, _, _, _ => hp.nil_eq
  | a :: t₁, [], hp, _, _, _, _ => absurd hp.symm (by simp)
  | a :: t₁, b :: t₂, hp, hs₁, hs₂, hnd, hanti => by
    have hab : a = b := by
      by_contra hne
      have haIn : a ∈ b :: t₂ := hp.mem_iff.mp (List.mem_cons_self a t₁)
      have haT₂ : a ∈ t₂ := by
        rcases List.mem_cons.mp haIn with h | h
        · exact absurd h hne
        · exact h
      have hbIn : b ∈ a :: t₁ := hp.mem_iff.mpr (List.mem_cons_self b t₂)
      have hbT₁ : b ∈ t₁ := by
        rcases List.mem_cons.mp hbIn with h | h
        · exact absurd h.symm hne
        · exact h
      have hrab : r a b := List.rel_of_sorted_cons hs₁ b hbT₁
      have hrba : r b a := List.rel_of_sorted_cons hs₂ a haT₂
      exact hne (hanti a (List.mem_cons_self a t₁) b (List.mem_cons_of_mem a hbT₁) hrab hrba)
    subst hab
    have htl : t₁ = t₂ :=
      eq_of_perm_of_sorted_nodup hp.cons_inv hs₁.of_cons hs₂.of_cons hnd.of_cons
        (fun x hx y hy => hanti x (List.mem_cons_of_mem a hx) y (List.mem_cons_of_mem a hy))
    rw [htl]

/-- C8: the commit orderings are a pure function of the dirty sets: on
canonical, bounded, duplicate-free dirty keys, the stably sorted key list is
the same for any two presentations of the set, likewise the descending dirty
order id list, and both outputs are sorted in the descending sense used by
Commit. -/
theorem C8_thm (keys1 keys2 : List PairKey) (ids1 ids2 : List ℕ)
    (hcanon : ∀ k ∈ keys1, k.Coin0 < k.Coin1 ∧ k.Coin1 < 4294967296)
    (hnd : keys1.Nodup) (hperm : keys1.Perm keys2)
    (hind : ids1.Nodup) (hiperm : ids1.Perm ids2) :
    getOrderedDirtyPairs keys1 = getOrderedDirtyPairs keys2 ∧
    getDirtyOrdersList ids1 = getDirtyOrdersList ids2 ∧
    List.Sorted keyGE (getOrderedDirtyPairs keys1) ∧
    List.Sorted idGE (getDirtyOrdersList ids1) := by
  have p1 := List.perm_insertionSort keyGE keys1
  have p2 := List.perm_insertionSort keyGE keys2
  have q1 := List.perm_insertionSort idGE ids1
  have q2 := List.perm_insertionSort idGE ids2
  refine ⟨?_, ?_, List.sorted_insertionSort keyGE keys1, List.sorted_insertionSort idGE ids1⟩
  · apply eq_of_perm_of_sorted_nodup (p1.trans (hperm.trans p2.symm))
      (List.sorted_insertionSort keyGE keys1) (List.sorted_insertionSort keyGE keys2)
      (p1.nodup_iff.mpr hnd)
    intro x hx y hy hxy hyx
    have hxk : x ∈ keys1 := p1.subset hx
    have hyk : y ∈ keys1 := p1.subset hy
    have hbytes : x.bytes = y.bytes := le_antisymm (hyx) (hxy)
    exact PairKey_bytes_inj (hcanon x hxk).1 (hcanon y hyk).1 (hcanon x hxk).2
      (hcanon y hyk).2 hbytes
  · apply eq_of_perm_of_sorted_nodup (q1.trans (hiperm.trans q2.symm))
      (List.sorted_insertionSort idGE ids1) (List.sorted_insertionSort idGE ids2)
      (q1.nodup_iff.mpr hind)
    intro x _ y _ hxy hyx
    exact le_antisymm hyx hxy

/-- C8 witness: the theorem applied to two presentations of a two-key, two-id
dirty set. -/
theorem C8_thm_witness :
    getOrderedDirtyPairs [⟨1, 2⟩, ⟨0, 5⟩] = getOrderedDirtyPairs [⟨0, 5⟩, ⟨1, 2⟩] ∧
    getDirtyOrdersList [3, 1] = getDirtyOrdersList [1, 3] ∧
    List.Sorted keyGE (getOrderedDirtyPairs [⟨1, 2⟩, ⟨0, 5⟩]) ∧
    List.Sorted idGE (getDirtyOrdersList [3, 1]) :=
  C8_thm [⟨1, 2⟩, ⟨0, 5⟩] [⟨0, 5⟩, ⟨1, 2⟩] [3, 1] [1, 3]
    (by decide) (by decide) (by decide) (by decide) (by decide)

end Minter
